import Mathlib

/-!
Shallow embedding of the Bookstore REST API (Node/Express, JSON-file
persistence) and verification of its specification claims.

Conventions of the embedding:
* JavaScript strings are modelled as Lean `String`; character-level
  operations (`toLowerCase`, `trim`, `includes`) are implemented over the
  underlying character list so that they evaluate by `decide`.
  `toLowerCase` is modelled with `Char.toLower` (ASCII case mapping), which
  agrees with JavaScript on the ASCII inputs the claims are about.
* JavaScript numbers occurring in the pagination logic are modelled by
  `JsNum`: either `NaN` or an integer.  The repository only ever produces
  integers or `NaN` on these paths (`parseInt` with radix 10).
* External effects (uuid generation, timestamps, bcrypt hashing, jwt
  signing) are passed to the modelled controllers as explicit arguments.
* Each controller is a pure function from its request data and the current
  document state to a response value and the next document state.
-/

/-- JavaScript whitespace as used by `trim` / `parseInt` / `\s`
(common characters; exotic Unicode spaces are not modelled). -/
def isJsWs (c : Char) : Bool :=
  c = ' ' || c = '\t' || c = '\n' || c = '\r' || c = '\x0b' || c = '\x0c'

/-- `s.toLowerCase()` (ASCII case mapping). -/
def lowerStr (s : String) : String := ⟨s.data.map Char.toLower⟩

/-- `s.trim()`. -/
def trimStr (s : String) : String :=
  ⟨((s.data.dropWhile isJsWs).reverse.dropWhile isJsWs).reverse⟩

/-- `hay.includes(needle)`: substring containment on character lists. -/
def isInfixB (needle hay : List Char) : Bool :=
  match hay with
  | [] => needle.isEmpty
  | _ :: t => needle.isPrefixOf hay || isInfixB needle t

/-- JavaScript truthiness of an optional string request field:
`undefined` and the empty string are falsy. -/
def truthy (o : Option String) : Bool :=
  match o with
  | none => false
  | some s => !(s == "")

/-- JavaScript truthiness of an optional numeric request field:
`undefined` and `0` are falsy. -/
def truthyI (o : Option Int) : Bool :=
  match o with
  | none => false
  | some n => !(n == 0)

/-- A JavaScript number as it occurs on the pagination paths:
`NaN` or an integer. -/
inductive JsNum where
  | nan
  | num (n : Int)
deriving DecidableEq, Repr

/-- JS subtraction (`NaN` propagates). -/
def jsSub : JsNum → JsNum → JsNum
  | .num a, .num b => .num (a - b)
  | _, _ => .nan

/-- JS addition (`NaN` propagates). -/
def jsAdd : JsNum → JsNum → JsNum
  | .num a, .num b => .num (a + b)
  | _, _ => .nan

/-- JS multiplication (`NaN` propagates). -/
def jsMul : JsNum → JsNum → JsNum
  | .num a, .num b => .num (a * b)
  | _, _ => .nan

/-- JS `<`: every comparison with `NaN` is false. -/
def jsLt : JsNum → JsNum → Bool
  | .num a, .num b => a < b
  | _, _ => false

/-- JS `>`: every comparison with `NaN` is false. -/
def jsGt : JsNum → JsNum → Bool
  | .num a, .num b => b < a
  | _, _ => false

/-- Decimal value of a list of digit characters. -/
def digitsVal (ds : List Char) : Nat :=
  ds.foldl (fun a c => a * 10 + (c.toNat - 48)) 0

/-- `parseInt(s, 10)`: skip leading whitespace, optional sign, then the
longest prefix of decimal digits; `NaN` when there is no digit. -/
def jsParseInt (s : String) : JsNum :=
  let cs := s.data.dropWhile isJsWs
  let (neg, cs') :=
    match cs with
    | '-' :: r => (true, r)
    | '+' :: r => (false, r)
    | _ => (false, cs)
  let ds := cs'.takeWhile Char.isDigit
  if ds.isEmpty then .nan
  else .num ((if neg then -1 else 1) * (digitsVal ds : Int))

/-- `Array.prototype.slice` index conversion (ECMA `ToIntegerOrInfinity`
then clamping): `NaN` becomes `0`, negative values count from the end. -/
def jsSliceIdx (len : Nat) : JsNum → Nat
  | .nan => 0
  | .num n => if n < 0 then (len + n).toNat else min n.toNat len

/-- `arr.slice(s, e)`. -/
def jsSlice {α : Type} (l : List α) (s e : JsNum) : List α :=
  (l.take (jsSliceIdx l.length e)).drop (jsSliceIdx l.length s)

/-- `Math.ceil(t / m)` for a natural `t` and a JS number `m` as it occurs
in `totalPages`; the guard in the controllers ensures `m` is `NaN` or
`≥ 1` at every use site, so only those cases matter. -/
def jsCeilDivNat (t : Nat) : JsNum → JsNum
  | .nan => .nan
  | .num m => if 1 ≤ m then .num (((t + m.toNat - 1) / m.toNat : Nat)) else .nan

/-- A book record (`src/types/book.types`): all fields strings except the
published year. -/
structure Book where
  id : String
  title : String
  author : String
  genre : String
  publishedYear : Int
  userId : String
deriving DecidableEq, Repr

/-- A user record (`src/types/user.types`); timestamps are ISO strings. -/
structure User where
  id : String
  username : String
  email : String
  password : String
  createdAt : String
  updatedAt : String
deriving DecidableEq, Repr

/-- The three optional query filters of `getAllBooks`, applied in source
order: genre (case-insensitive equality), author and title
(case-insensitive substring).  A falsy (absent or empty) parameter is a
no-op, mirroring `if (genre) { ... }`. -/
def applyFilters (books : List Book) (genre author title : Option String) : List Book :=
  let b1 :=
    match genre with
    | some g => if g == "" then books else books.filter fun b => lowerStr b.genre == lowerStr g
    | none => books
  let b2 :=
    match author with
    | some a => if a == "" then b1 else b1.filter fun b => isInfixB (lowerStr a).data (lowerStr b.author).data
    | none => b1
  match title with
  | some t => if t == "" then b2 else b2.filter fun b => isInfixB (lowerStr t).data (lowerStr b.title).data
  | none => b2

/-- Response of the two listing endpoints. -/
inductive ListResult where
  | badRequest (msg : String)
  | ok (books : List Book) (currentPage totalPages : JsNum) (totalBooks : Nat)
       (hasNextPage hasPreviousPage : Bool)
deriving DecidableEq, Repr

def ListResult.isOk : ListResult → Bool
  | .ok .. => true
  | .badRequest _ => false

def ListResult.isBadRequest : ListResult → Bool
  | .badRequest _ => true
  | .ok .. => false

def ListResult.pageBooks : ListResult → List Book
  | .ok bs .. => bs
  | .badRequest _ => []

def ListResult.hasNext : ListResult → Bool
  | .ok _ _ _ _ hn _ => hn
  | .badRequest _ => false

def ListResult.hasPrev : ListResult → Bool
  | .ok _ _ _ _ _ hp => hp
  | .badRequest _ => false

/-- `getAllBooks` after `parseInt` of the `page`/`limit` query strings
(book.controllers lines 46-97). -/
def getAllBooksCore (books : List Book) (genre author title : Option String)
    (pageNumber limitNumber : JsNum) : ListResult :=
  if jsLt pageNumber (.num 1) || jsLt limitNumber (.num 1) then
    .badRequest "Page and limit must be positive numbers"
  else
    let filteredBooks := applyFilters books genre author title
    let startIndex := jsMul (jsSub pageNumber (.num 1)) limitNumber
    let endIndex := jsAdd startIndex limitNumber
    let paginatedBooks := jsSlice filteredBooks startIndex endIndex
    let totalBooks := filteredBooks.length
    let totalPages := jsCeilDivNat totalBooks limitNumber
    .ok paginatedBooks pageNumber totalPages totalBooks
      (jsLt pageNumber totalPages) (jsGt pageNumber (.num 1))

/-- `getAllBooks`: query strings default to `"1"` / `"10"` and go through
`parseInt(·, 10)`. -/
def getAllBooks (books : List Book) (genre author title page limit : Option String) : ListResult :=
  getAllBooksCore books genre author title
    (jsParseInt (page.getD "1")) (jsParseInt (limit.getD "10"))

/-- `searchBooksByGenre` after `parseInt` (book.controllers lines 116-156);
the genre path parameter is always present and the filter is unconditional. -/
def searchBooksByGenreCore (books : List Book) (genre : String)
    (pageNumber limitNumber : JsNum) : ListResult :=
  if jsLt pageNumber (.num 1) || jsLt limitNumber (.num 1) then
    .badRequest "Page and limit must be positive numbers"
  else
    let filteredBooks := books.filter fun b => lowerStr b.genre == lowerStr genre
    let startIndex := jsMul (jsSub pageNumber (.num 1)) limitNumber
    let endIndex := jsAdd startIndex limitNumber
    let paginatedBooks := jsSlice filteredBooks startIndex endIndex
    let totalBooks := filteredBooks.length
    let totalPages := jsCeilDivNat totalBooks limitNumber
    .ok paginatedBooks pageNumber totalPages totalBooks
      (jsLt pageNumber totalPages) (jsGt pageNumber (.num 1))

/-- `searchBooksByGenre` with its query strings. -/
def searchBooksByGenre (books : List Book) (genre : String) (page limit : Option String) : ListResult :=
  searchBooksByGenreCore books genre
    (jsParseInt (page.getD "1")) (jsParseInt (limit.getD "10"))

/-- Merge of a book update request body into the stored record
(book.controllers lines 391-397): object-spread with truthiness guards,
so only *truthy* fields overwrite; string fields are trimmed.
`parseInt(publishedYear)` is the identity on the integer body values
modelled here. -/
def mergeBook (b : Book) (title author genre : Option String) (publishedYear : Option Int) : Book :=
  { b with
    title := if truthy title then trimStr (title.getD "") else b.title
    author := if truthy author then trimStr (author.getD "") else b.author
    genre := if truthy genre then trimStr (genre.getD "") else b.genre
    publishedYear := if truthyI publishedYear then publishedYear.getD 0 else b.publishedYear }

/-- Response of `updateBook`. -/
inductive UpdateBookResult where
  | badRequest (msg : String)
  | unauthorized
  | notFound
  | forbidden
  | ok (book : Book)
deriving DecidableEq, Repr

/-- `updateBook` (book.controllers lines 307-417): id/auth guards, lookup,
ownership check, per-field validation of truthy fields, merge, write-back.
`currentYear` is `new Date().getFullYear()` passed explicitly. -/
def updateBook (id : String) (title author genre : Option String) (publishedYear : Option Int)
    (userId : Option String) (currentYear : Int) (books : List Book) :
    UpdateBookResult × List Book :=
  if id == "" then (.badRequest "Book ID is required", books)
  else if !(truthy userId) then (.unauthorized, books)
  else
    match books.findIdx? (fun b => b.id == id) with
    | none => (.notFound, books)
    | some bookIndex =>
      match books[bookIndex]? with
      | none => (.notFound, books)
      | some b =>
        if !(b.userId == userId.getD "") then (.forbidden, books)
        else if truthyI publishedYear &&
            (publishedYear.getD 0 < 1000 || currentYear < publishedYear.getD 0) then
          (.badRequest "Published year out of range", books)
        else if truthy title &&
            ((trimStr (title.getD "")).length < 1 || 200 < (trimStr (title.getD "")).length) then
          (.badRequest "Title must be between 1 and 200 characters", books)
        else if truthy author &&
            ((trimStr (author.getD "")).length < 1 || 100 < (trimStr (author.getD "")).length) then
          (.badRequest "Author must be between 1 and 100 characters", books)
        else if truthy genre &&
            ((trimStr (genre.getD "")).length < 1 || 50 < (trimStr (genre.getD "")).length) then
          (.badRequest "Genre must be between 1 and 50 characters", books)
        else
          let updatedBook := mergeBook b title author genre publishedYear
          (.ok updatedBook, books.set bookIndex updatedBook)

/-- Response of `deleteBook`. -/
inductive DeleteBookResult where
  | badRequest (msg : String)
  | unauthorized
  | notFound
  | forbidden
  | ok
deriving DecidableEq, Repr

/-- `deleteBook` (book.controllers lines 420-473): id/auth guards, lookup,
ownership check, splice-out, write-back. -/
def deleteBook (id : String) (userId : Option String) (books : List Book) :
    DeleteBookResult × List Book :=
  if id == "" then (.badRequest "Book ID is required", books)
  else if !(truthy userId) then (.unauthorized, books)
  else
    match books.findIdx? (fun b => b.id == id) with
    | none => (.notFound, books)
    | some bookIndex =>
      match books[bookIndex]? with
      | none => (.notFound, books)
      | some b =>
        if !(b.userId == userId.getD "") then (.forbidden, books)
        else (.ok, books.eraseIdx bookIndex)

/-- The user object of a success response: the rest-spread
`const { password, ...userWithoutPassword } = user`, keeping the
remaining fields in insertion order as key/value pairs. -/
def publicUserPairs (u : User) : List (String × String) :=
  [("id", u.id), ("username", u.username), ("email", u.email),
   ("createdAt", u.createdAt), ("updatedAt", u.updatedAt)]

/-- The email regex `^[^\s@]+@[^\s@]+\.[^\s@]+$` (user.controllers
lines 16-19): exactly one `@`, a nonempty local part without
whitespace, and a domain part without whitespace containing a dot with
at least one character on each side. -/
def isValidEmail (email : String) : Bool :=
  let cs := email.data
  let beforeAt := cs.takeWhile (fun c => !(c == '@'))
  let rest := cs.drop beforeAt.length
  match rest with
  | '@' :: domain =>
    !beforeAt.isEmpty && beforeAt.all (fun c => !(isJsWs c)) &&
    !domain.isEmpty && domain.all (fun c => !(isJsWs c) && !(c == '@')) &&
    ((domain.drop 1).dropLast.contains '.')
  | _ => false

/-- One ASCII letter, as in the regex classes `[A-Za-z]`. -/
def isAsciiLetter (c : Char) : Bool :=
  ('A' ≤ c && c ≤ 'Z') || ('a' ≤ c && c ≤ 'z')

/-- Characters admitted by the password regex body `[A-Za-z\d@$!%*#?&]`. -/
def isAllowedPwChar (c : Char) : Bool :=
  isAsciiLetter c || c.isDigit || ['@', '$', '!', '%', '*', '#', '?', '&'].contains c

/-- The password regex `^(?=.*[A-Za-z])(?=.*\d)[A-Za-z\d@$!%*#?&]{6,}$`
(user.controllers lines 21-24): at least 6 characters, all from the
allowed class, at least one letter and at least one digit. -/
def isValidPassword (password : String) : Bool :=
  let cs := password.data
  decide (6 ≤ cs.length) && cs.all isAllowedPwChar &&
    cs.any isAsciiLetter && cs.any Char.isDigit

/-- Response of `registerUser`. -/
inductive RegisterResult where
  | badRequest (msg : String)
  | conflict
  | created (payload : List (String × String))
deriving DecidableEq, Repr

/-- `registerUser` (user.controllers lines 33-115).  `newId`, `now` and
`hashedPassword` stand for the uuid, timestamp and bcrypt effects. -/
def registerUser (username email password : Option String)
    (newId now hashedPassword : String) (users : List User) :
    RegisterResult × List User :=
  if !(truthy username) || !(truthy email) || !(truthy password) then
    (.badRequest "Username, email, and password are required", users)
  else if !(isValidEmail (email.getD "")) then
    (.badRequest "Please provide a valid email address", users)
  else if !(isValidPassword (password.getD "")) then
    (.badRequest "Password must be at least 6 characters long and contain at least one letter and one number", users)
  else if (username.getD "").length < 3 || 20 < (username.getD "").length then
    (.badRequest "Username must be between 3 and 20 characters", users)
  else if users.any (fun u => lowerStr u.email == lowerStr (email.getD "") ||
      lowerStr u.username == lowerStr (username.getD "")) then
    (.conflict, users)
  else
    let newUser : User :=
      { id := newId, username := trimStr (username.getD ""),
        email := trimStr (lowerStr (email.getD "")),
        password := hashedPassword, createdAt := now, updatedAt := now }
    (.created (publicUserPairs newUser), users ++ [newUser])

/-- Response of `loginUser`. -/
inductive LoginResult where
  | badRequest (msg : String)
  | unauthorized
  | ok (payload : List (String × String)) (token : String)
deriving DecidableEq, Repr

/-- `loginUser` (user.controllers lines 152-208).  `checkHash` stands for
`bcrypt.compare` and `mkToken` for `jwt.sign`. -/
def loginUser (email password : Option String)
    (checkHash : String → String → Bool) (mkToken : String → String → String)
    (users : List User) : LoginResult :=
  if !(truthy email) || !(truthy password) then
    (.badRequest "Email and password are required")
  else
    match users.find? (fun u => lowerStr u.email == lowerStr (email.getD "")) with
    | none => .unauthorized
    | some u =>
      if !(checkHash (password.getD "") u.password) then .unauthorized
      else .ok (publicUserPairs u) (mkToken u.id u.email)

/-- `getAllUsers` (user.controllers lines 219-240): every stored user is
returned through the password-stripping rest-spread. -/
def getAllUsers (users : List User) : List (List (String × String)) × Nat :=
  let usersWithoutPasswords := users.map publicUserPairs
  (usersWithoutPasswords, usersWithoutPasswords.length)

/-- Response of `getUserById`. -/
inductive GetUserResult where
  | badRequest (msg : String)
  | notFound
  | ok (payload : List (String × String))
deriving DecidableEq, Repr

/-- `getUserById` (user.controllers lines 251-288). -/
def getUserById (id : String) (users : List User) : GetUserResult :=
  if id == "" then .badRequest "User ID is required"
  else
    match users.find? (fun u => u.id == id) with
    | none => .notFound
    | some u => .ok (publicUserPairs u)

/-- Merge of a user update request body into the stored record
(user.controllers lines 358-363): truthiness-guarded spread; `updatedAt`
is always refreshed to `now`. -/
def mergeUser (u : User) (username email : Option String) (now : String) : User :=
  { u with
    username := if truthy username then trimStr (username.getD "") else u.username
    email := if truthy email then trimStr (lowerStr (email.getD "")) else u.email
    updatedAt := now }

/-- Response of `updateUser`. -/
inductive UpdateUserResult where
  | badRequest (msg : String)
  | notFound
  | conflict
  | ok (payload : List (String × String))
deriving DecidableEq, Repr

/-- `updateUser` (user.controllers lines 300-379): lookup, optional email
validation, duplicate check against the other records, truthiness-guarded
merge, write-back, password-stripped response. -/
def updateUser (id : String) (username email : Option String) (now : String)
    (users : List User) : UpdateUserResult × List User :=
  if id == "" then (.badRequest "User ID is required", users)
  else
    match users.findIdx? (fun u => u.id == id) with
    | none => (.notFound, users)
    | some userIndex =>
      match users[userIndex]? with
      | none => (.notFound, users)
      | some u =>
        if truthy email && !(isValidEmail (email.getD "")) then
          (.badRequest "Please provide a valid email address", users)
        else if (truthy username || truthy email) &&
            users.enum.any (fun p => !(p.1 == userIndex) &&
              ((truthy username && lowerStr p.2.username == lowerStr (username.getD "")) ||
               (truthy email && lowerStr p.2.email == lowerStr (email.getD "")))) then
          (.conflict, users)
        else
          let updatedUser := mergeUser u username email now
          (.ok (publicUserPairs updatedUser), users.set userIndex updatedUser)

/-- A JSON value as stored in the collection documents.  Numbers are
restricted to integers: the only numeric field the repository writes is
`publishedYear`, always an integer.  Object fields keep insertion order,
as JavaScript objects do for the string keys used here. -/
inductive JVal where
  | jnull
  | jbool (b : Bool)
  | jnum (n : Int)
  | jstr (s : String)
  | jarr (elems : List JVal)
  | jobj (fields : List (String × JVal))

/-- The decimal digit character for `d < 10`. -/
def digitChar (d : Nat) : Char := Char.ofNat (48 + d)

/-- Decimal digits of a natural number, most significant first. -/
def natToChars (n : Nat) : List Char :=
  if n < 10 then [digitChar n]
  else natToChars (n / 10) ++ [digitChar (n % 10)]
decreasing_by exact Nat.div_lt_self (by omega) (by omega)

/-- Decimal rendering of an integer (`String(n)` for integral JS numbers). -/
def intToChars : Int → List Char
  | .ofNat m => natToChars m
  | .negSucc m => '-' :: natToChars (m + 1)

/-- Lowercase hexadecimal digit for `d < 16`. -/
def hexChar (d : Nat) : Char :=
  if d < 10 then Char.ofNat (48 + d) else Char.ofNat (87 + d)

/-- `JSON.stringify` escaping of one string character: quote, backslash,
the short control escapes, `\u00XX` for other control characters, and
every other character verbatim. -/
def escChar (c : Char) : List Char :=
  if c = '"' then ['\\', '"']
  else if c = '\\' then ['\\', '\\']
  else if c = '\x08' then ['\\', 'b']
  else if c = '\t' then ['\\', 't']
  else if c = '\n' then ['\\', 'n']
  else if c = '\x0c' then ['\\', 'f']
  else if c = '\r' then ['\\', 'r']
  else if c.toNat < 32 then
    ['\\', 'u', '0', '0', hexChar (c.toNat / 16), hexChar (c.toNat % 16)]
  else [c]

/-- `JSON.stringify` escaping of a whole string body. -/
def escStr : List Char → List Char
  | [] => []
  | c :: cs => escChar c ++ escStr cs

/-- The indentation produced by `JSON.stringify(·, null, 2)` at depth `d`. -/
def indentChars (d : Nat) : List Char := List.replicate (2 * d) ' '

mutual
/-- `JSON.stringify(v, null, 2)` at nesting depth `d`, as a character
list: members of nonempty arrays/objects each on their own line, indented
two further spaces, `": "` after object keys. -/
def printVal (d : Nat) : JVal → List Char
  | .jnull => ['n', 'u', 'l', 'l']
  | .jbool true => ['t', 'r', 'u', 'e']
  | .jbool false => ['f', 'a', 'l', 's', 'e']
  | .jnum n => intToChars n
  | .jstr s => '"' :: (escStr s.data ++ ['"'])
  | .jarr [] => ['[', ']']
  | .jarr (e :: es) =>
    '[' :: '\n' :: (indentChars (d + 1) ++ (printVal (d + 1) e ++
      (printArrItems (d + 1) es ++ ('\n' :: (indentChars d ++ [']'])))))
  | .jobj [] => ['\x7b', '\x7d']
  | .jobj ((k, v) :: fs) =>
    '\x7b' :: '\n' :: (indentChars (d + 1) ++ ('"' :: (escStr k.data ++ ('"' :: ':' :: ' ' ::
      (printVal (d + 1) v ++ (printObjItems (d + 1) fs ++
        ('\n' :: (indentChars d ++ ['\x7d']))))))))

/-- The remaining members of a nonempty serialized array. -/
def printArrItems (d : Nat) : List JVal → List Char
  | [] => []
  | e :: es => ',' :: '\n' :: (indentChars d ++ (printVal d e ++ printArrItems d es))

/-- The remaining members of a nonempty serialized object. -/
def printObjItems (d : Nat) : List (String × JVal) → List Char
  | [] => []
  | (k, v) :: fs =>
    ',' :: '\n' :: (indentChars d ++ ('"' :: (escStr k.data ++ ('"' :: ':' :: ' ' ::
      (printVal d v ++ printObjItems d fs)))))
end

/-- `JSON.stringify(v, null, 2)`. -/
def stringifyPretty (v : JVal) : String := ⟨printVal 0 v⟩

mutual
/-- Parser fuel requirement of a value: one unit per value node and per
sequence step. -/
def jsize : JVal → Nat
  | .jnull => 1
  | .jbool _ => 1
  | .jnum _ => 1
  | .jstr _ => 1
  | .jarr l => 1 + jsizeL l
  | .jobj l => 1 + jsizeO l

/-- Fuel requirement of an array member list. -/
def jsizeL : List JVal → Nat
  | [] => 0
  | e :: es => 1 + jsize e + jsizeL es

/-- Fuel requirement of an object member list. -/
def jsizeO : List (String × JVal) → Nat
  | [] => 0
  | (_, v) :: fs => 1 + jsize v + jsizeO fs
end

/-- JSON source whitespace accepted by `JSON.parse`. -/
def isJsonWs (c : Char) : Bool :=
  c = ' ' || c = '\t' || c = '\n' || c = '\r'

/-- Skip insignificant whitespace. -/
def skipWs (cs : List Char) : List Char := cs.dropWhile isJsonWs

/-- Value of one hexadecimal digit (either case). -/
def hexVal (c : Char) : Option Nat :=
  if '0' ≤ c && c ≤ '9' then some (c.toNat - 48)
  else if 'a' ≤ c && c ≤ 'f' then some (c.toNat - 87)
  else if 'A' ≤ c && c ≤ 'F' then some (c.toNat - 55)
  else none

/-- Value of a four-digit hexadecimal escape. -/
def hex4 (h1 h2 h3 h4 : Char) : Option Nat :=
  match hexVal h1, hexVal h2, hexVal h3, hexVal h4 with
  | some a, some b, some c, some d => some (((a * 16 + b) * 16 + c) * 16 + d)
  | _, _, _, _ => none

/-- The single-character JSON string escapes. -/
def unescapeChar (e : Char) : Option Char :=
  if e = '"' then some '"'
  else if e = '\\' then some '\\'
  else if e = '/' then some '/'
  else if e = 'b' then some '\x08'
  else if e = 'f' then some '\x0c'
  else if e = 'n' then some '\n'
  else if e = 'r' then some '\r'
  else if e = 't' then some '\t'
  else none

/-- Body of a JSON string literal after the opening quote: returns the
decoded characters and the input after the closing quote. -/
def parseStrBody : List Char → Option (List Char × List Char)
  | [] => none
  | c :: cs =>
    if c = '"' then some ([], cs)
    else if c = '\\' then
      match cs with
      | 'u' :: h1 :: h2 :: h3 :: h4 :: cs' =>
        match hex4 h1 h2 h3 h4, parseStrBody cs' with
        | some n, some (s, r) => some (Char.ofNat n :: s, r)
        | _, _ => none
      | e :: cs' =>
        if e = 'u' then none
        else
          match unescapeChar e, parseStrBody cs' with
          | some uc, some (s, r) => some (uc :: s, r)
          | _, _ => none
      | [] => none
    else if c.toNat < 32 then none
    else
      match parseStrBody cs with
      | some (s, r) => some (c :: s, r)
      | none => none

/-- A JSON number literal without sign: the longest digit prefix.
(Fractional and exponent parts are not modelled: the repository's
documents only contain integers.) -/
def parseNatNum (cs : List Char) : Option (Nat × List Char) :=
  let ds := cs.takeWhile Char.isDigit
  if ds.isEmpty then none else some (digitsVal ds, cs.drop ds.length)

/-- A JSON integer literal with optional minus sign. -/
def parseNum (cs : List Char) : Option (Int × List Char) :=
  if cs.head? = some '-' then (parseNatNum cs.tail).map fun p => (-(p.1 : Int), p.2)
  else (parseNatNum cs).map fun p => ((p.1 : Int), p.2)

mutual
/-- Recursive-descent model of `JSON.parse` for one value; `fuel` bounds
the recursion depth and is in surplus on every reachable input. -/
def parseVal : Nat → List Char → Option (JVal × List Char)
  | 0, _ => none
  | fuel + 1, cs =>
    match skipWs cs with
    | [] => none
    | c :: cs' =>
      if c = 'n' then
        match cs' with
        | 'u' :: 'l' :: 'l' :: r => some (.jnull, r)
        | _ => none
      else if c = 't' then
        match cs' with
        | 'r' :: 'u' :: 'e' :: r => some (.jbool true, r)
        | _ => none
      else if c = 'f' then
        match cs' with
        | 'a' :: 'l' :: 's' :: 'e' :: r => some (.jbool false, r)
        | _ => none
      else if c = '"' then
        match parseStrBody cs' with
        | some (s, r) => some (.jstr ⟨s⟩, r)
        | none => none
      else if c = '[' then
        if (skipWs cs').head? = some ']' then some (.jarr [], (skipWs cs').tail)
        else
          match parseItems fuel (skipWs cs') with
          | some (vs, r') => some (.jarr vs, r')
          | none => none
      else if c = '\x7b' then
        if (skipWs cs').head? = some '\x7d' then some (.jobj [], (skipWs cs').tail)
        else
          match parseFields fuel (skipWs cs') with
          | some (fs, r') => some (.jobj fs, r')
          | none => none
      else if c = '-' || c.isDigit then
        match parseNum (c :: cs') with
        | some (n, r) => some (.jnum n, r)
        | none => none
      else none

/-- Members of a nonempty array, up to and including the closing bracket. -/
def parseItems : Nat → List Char → Option (List JVal × List Char)
  | 0, _ => none
  | fuel + 1, cs =>
    match parseVal fuel cs with
    | none => none
    | some (v, r) =>
      if (skipWs r).head? = some ']' then some ([v], (skipWs r).tail)
      else if (skipWs r).head? = some ',' then
        match parseItems fuel (skipWs r).tail with
        | some (vs, r'') => some (v :: vs, r'')
        | none => none
      else none

/-- Members of a nonempty object, up to and including the closing brace. -/
def parseFields : Nat → List Char → Option (List (String × JVal) × List Char)
  | 0, _ => none
  | fuel + 1, cs =>
    match skipWs cs with
    | '"' :: cs' =>
      match parseStrBody cs' with
      | none => none
      | some (k, r) =>
        if (skipWs r).head? = some ':' then
          match parseVal fuel (skipWs r).tail with
          | none => none
          | some (v, r2) =>
            if (skipWs r2).head? = some '\x7d' then some ([(⟨k⟩, v)], (skipWs r2).tail)
            else if (skipWs r2).head? = some ',' then
              match parseFields fuel (skipWs r2).tail with
              | some (fs, r4) => some ((⟨k⟩, v) :: fs, r4)
              | none => none
            else none
        else none
    | _ => none
end

/-- `JSON.parse(s)`: one value, then nothing but whitespace. -/
def parseJson (s : String) : Option JVal :=
  match parseVal (s.length + 1) s.data with
  | some (v, rest) => if (skipWs rest).isEmpty then some v else none
  | none => none

/-- The file system seen by the storage gateway: a map from paths to file
contents. -/
def FileSys : Type := String → Option String

/-- `writeJSONFile` (file.utils lines 8-13): serialize with
`JSON.stringify(content, null, 2)` and overwrite the whole file. -/
def writeJSONFile (filePath : String) (content : JVal) (fs : FileSys) : FileSys :=
  fun q => if q == filePath then some (stringifyPretty content) else fs q

/-- `readJSONFile` (file.utils lines 3-6): read the whole file and
`JSON.parse` it; missing file or undecodable content is a failure. -/
def readJSONFile (filePath : String) (fs : FileSys) : Option JVal :=
  match fs filePath with
  | some data => parseJson data
  | none => none

/-- True when the input does not begin with a decimal digit (so a digit
run cannot extend into it). -/
def headNotDigit (cs : List Char) : Bool :=
  match cs with
  | [] => true
  | c :: _ => !c.isDigit

/-- The genre criterion of the specification: a supplied (truthy) genre
parameter must match case-insensitively and exactly. -/
def genreMatches (go : Option String) (b : Book) : Bool :=
  match go with
  | some g => if g == "" then true else lowerStr b.genre == lowerStr g
  | none => true

/-- The author criterion: a supplied author parameter must occur
case-insensitively as a substring. -/
def authorMatches (ao : Option String) (b : Book) : Bool :=
  match ao with
  | some a => if a == "" then true else isInfixB (lowerStr a).data (lowerStr b.author).data
  | none => true

/-- The title criterion: a supplied title parameter must occur
case-insensitively as a substring. -/
def titleMatches (to_ : Option String) (b : Book) : Bool :=
  match to_ with
  | some t => if t == "" then true else isInfixB (lowerStr t).data (lowerStr b.title).data
  | none => true

/-- A sample stored book used to instantiate theorems with hypotheses. -/
def demoBook : Book :=
  { id := "b1", title := "Dune", author := "Frank Herbert", genre := "Fiction",
    publishedYear := 1965, userId := "u1" }

/-- Sample records for the genre-filter example of the specification. -/
def demoFiction1 : Book :=
  { id := "f1", title := "A", author := "X", genre := "Fiction",
    publishedYear := 2000, userId := "u1" }

def demoFiction2 : Book :=
  { id := "f2", title := "B", author := "Y", genre := "fiction",
    publishedYear := 2001, userId := "u2" }

def demoDrama : Book :=
  { id := "f3", title := "C", author := "Z", genre := "Drama",
    publishedYear := 2002, userId := "u3" }

/-- The stored user produced by registering `"a@x.com"`. -/
def demoUser : User :=
  { id := "id1", username := "bob", email := "a@x.com", password := "h1",
    createdAt := "t1", updatedAt := "t1" }

/-- C1: an update or delete request on a stored book whose owner id
differs from the authenticated caller's user id returns the authorization
error (`403`-branch) and leaves the books collection unchanged. -/
theorem ownershipGuardBlocksUpdateAndDelete
    (books : List Book) (id : String) (title author genre : Option String)
    (publishedYear : Option Int) (uid : String) (currentYear : Int)
    (i : Nat) (b : Book)
    (hid : (id == "") = false)
    (huid : (uid == "") = false)
    (hfind : books.findIdx? (fun b => b.id == id) = some i)
    (hget : books[i]? = some b)
    (hown : (b.userId == uid) = false) :
    updateBook id title author genre publishedYear (some uid) currentYear books
      = (.forbidden, books) ∧
    deleteBook id (some uid) books = (.forbidden, books) := by
  constructor
  · simp only [updateBook, hid, truthy, huid, hfind, hget, hown, Bool.not_false,
      Bool.not_true, Bool.false_eq_true, if_false, if_true, Option.getD_some]
  · simp only [deleteBook, hid, truthy, huid, hfind, hget, hown, Bool.not_false,
      Bool.not_true, Bool.false_eq_true, if_false, if_true, Option.getD_some]

/-- Witness for C1 at a concrete book and a non-owning caller. -/
theorem ownershipGuardBlocksUpdateAndDelete_witness :
    updateBook "b1" (some "New title") none none none (some "u2") 2025 [demoBook]
      = (.forbidden, [demoBook]) ∧
    deleteBook "b1" (some "u2") [demoBook] = (.forbidden, [demoBook]) :=
  ownershipGuardBlocksUpdateAndDelete [demoBook] "b1" (some "New title") none none
    none "u2" 2025 0 demoBook (by decide) (by decide) (by decide) (by decide) (by decide)

/-- Helper: natural-number form of `page < ceil(total / size)`. -/
theorem lt_ceilDiv_iff_mul_lt (p t s : Nat) (hs : 1 ≤ s) :
    p < (t + s - 1) / s ↔ p * s < t := by
  rw [Nat.lt_iff_add_one_le, Nat.le_div_iff_mul_le (by omega : 0 < s), Nat.add_mul, Nat.one_mul]
  generalize p * s = ps
  omega

/-- Helper: `arr.slice` at natural indices is take-then-drop with clamping. -/
theorem jsSlice_natCast {α : Type} (l : List α) (a b : Nat) :
    jsSlice l (.num (a : Int)) (.num (b : Int))
      = (l.take (min b l.length)).drop (min a l.length) := by
  simp only [jsSlice, jsSliceIdx]
  rw [if_neg (by omega : ¬((b : Int) < 0)), if_neg (by omega : ¬((a : Int) < 0))]
  simp

/-- Helper: the arithmetic `(page - 1) * size` done on JS numbers equals
the natural-number window start, for `page ≥ 1`. -/
theorem startIndex_natCast (p s : Nat) (hp : 1 ≤ p) :
    jsMul (jsSub (.num (p : Int)) (.num 1)) (.num (s : Int))
      = .num (((p - 1) * s : Nat) : Int) := by
  simp only [jsSub, jsMul]
  congr 1
  push_cast [Nat.cast_sub hp]
  ring

/-- Helper: JS addition of two natural JS numbers. -/
theorem jsAdd_natCast (x s : Nat) :
    jsAdd (.num (x : Int)) (.num (s : Int)) = .num ((x + s : Nat) : Int) := by
  simp only [jsAdd, JsNum.num.injEq, Nat.cast_add]

/-- C2: for every book list, filter outcome and numeric page ≥ 1 and
pageSize ≥ 1, both listing endpoints succeed and return a page slice of
length `min pageSize (totalMatches - (page-1)*pageSize)` (natural
subtraction, hence 0 when the window starts beyond the matches); a page
beyond the last page yields an empty slice with a success result. -/
theorem paginationSliceLength (books : List Book) (g a t : Option String) (genre : String)
    (p s : Nat) (hp : 1 ≤ p) (hs : 1 ≤ s) :
    ((getAllBooksCore books g a t (.num (p : Int)) (.num (s : Int))).isOk = true ∧
     (getAllBooksCore books g a t (.num (p : Int)) (.num (s : Int))).pageBooks.length
       = min s ((applyFilters books g a t).length - (p - 1) * s) ∧
     ((applyFilters books g a t).length ≤ (p - 1) * s →
       (getAllBooksCore books g a t (.num (p : Int)) (.num (s : Int))).pageBooks = [])) ∧
    ((searchBooksByGenreCore books genre (.num (p : Int)) (.num (s : Int))).isOk = true ∧
     (searchBooksByGenreCore books genre (.num (p : Int)) (.num (s : Int))).pageBooks.length
       = min s ((books.filter fun b => lowerStr b.genre == lowerStr genre).length - (p - 1) * s) ∧
     ((books.filter fun b => lowerStr b.genre == lowerStr genre).length ≤ (p - 1) * s →
       (searchBooksByGenreCore books genre (.num (p : Int)) (.num (s : Int))).pageBooks = [])) := by
  have hguard : (jsLt (.num (p : Int)) (.num 1) || jsLt (.num (s : Int)) (.num 1)) = false := by
    simp only [jsLt, Bool.or_eq_false_iff, decide_eq_false_iff_not]
    omega
  constructor
  · unfold getAllBooksCore
    rw [hguard]
    simp only [Bool.false_eq_true, if_false, ListResult.isOk, ListResult.pageBooks,
      startIndex_natCast p s hp, jsAdd_natCast, jsSlice_natCast]
    refine ⟨trivial, ?_, ?_⟩
    · simp only [List.length_drop, List.length_take]
      omega
    · intro hbeyond
      apply List.eq_nil_of_length_eq_zero
      simp only [List.length_drop, List.length_take]
      omega
  · unfold searchBooksByGenreCore
    rw [hguard]
    simp only [Bool.false_eq_true, if_false, ListResult.isOk, ListResult.pageBooks,
      startIndex_natCast p s hp, jsAdd_natCast, jsSlice_natCast]
    refine ⟨trivial, ?_, ?_⟩
    · simp only [List.length_drop, List.length_take]
      omega
    · intro hbeyond
      apply List.eq_nil_of_length_eq_zero
      simp only [List.length_drop, List.length_take]
      omega

/-- Witness for C2: page 2 of a one-book list at page size 1 is beyond
the last page: success with an empty slice. -/
theorem paginationSliceLength_witness :
    (getAllBooksCore [demoBook] none none none (.num 2) (.num 1)).isOk = true ∧
    (getAllBooksCore [demoBook] none none none (.num 2) (.num 1)).pageBooks = [] := by
  have h := paginationSliceLength [demoBook] none none none "Fiction" 2 1
    (by decide) (by decide)
  exact ⟨h.1.1, h.1.2.2 (by decide)⟩

/-- C3: with numeric page ≥ 1 and pageSize ≥ 1, `hasNextPage` is true iff
`page * pageSize < totalMatches` (the code computes
`page < ceil(totalMatches / pageSize)`), and `hasPreviousPage` is true iff
`page > 1`. -/
theorem hasNextPrevPageFlags (books : List Book) (g a t : Option String)
    (p s : Nat) (hp : 1 ≤ p) (hs : 1 ≤ s) :
    ((getAllBooksCore books g a t (.num (p : Int)) (.num (s : Int))).hasNext = true
      ↔ p * s < (applyFilters books g a t).length) ∧
    ((getAllBooksCore books g a t (.num (p : Int)) (.num (s : Int))).hasPrev = true
      ↔ 1 < p) := by
  have hguard : (jsLt (.num (p : Int)) (.num 1) || jsLt (.num (s : Int)) (.num 1)) = false := by
    simp only [jsLt, Bool.or_eq_false_iff, decide_eq_false_iff_not]
    omega
  unfold getAllBooksCore
  rw [hguard]
  simp only [Bool.false_eq_true, if_false, ListResult.hasNext, ListResult.hasPrev]
  constructor
  · simp only [jsCeilDivNat]
    rw [if_pos (by exact_mod_cast hs : (1 : Int) ≤ (s : Int))]
    simp only [jsLt, decide_eq_true_eq, Int.toNat_natCast]
    rw [show ((p : Int) < ((((applyFilters books g a t).length + s - 1) / s : Nat) : Int))
        ↔ p < (((applyFilters books g a t).length + s - 1) / s) from by exact_mod_cast Iff.rfl]
    exact lt_ceilDiv_iff_mul_lt p _ s hs
  · simp only [jsGt, decide_eq_true_eq]
    exact_mod_cast Iff.rfl

/-- Witness for C3 at page 1, pageSize 10 over a single stored book. -/
theorem hasNextPrevPageFlags_witness :
    ((getAllBooksCore [demoBook] none none none (.num ((1 : Nat) : Int))
        (.num ((10 : Nat) : Int))).hasNext = true
      ↔ 1 * 10 < (applyFilters [demoBook] none none none).length) ∧
    ((getAllBooksCore [demoBook] none none none (.num ((1 : Nat) : Int))
        (.num ((10 : Nat) : Int))).hasPrev = true
      ↔ 1 < 1) :=
  hasNextPrevPageFlags [demoBook] none none none 1 10 (by decide) (by decide)

/-- C4: the listing returns exactly the books satisfying all supplied
filters (logical AND of the genre/author/title criteria), an absent
filter excludes nothing, and the genre filter is case-insensitive exact
match, as on the specification's `Fiction/fiction/Drama` example. -/
theorem filteringIsConjunctionOfCriteria :
    (∀ (books : List Book) (go ao to_ : Option String) (b : Book),
      b ∈ applyFilters books go ao to_
        ↔ b ∈ books ∧ genreMatches go b = true ∧ authorMatches ao b = true ∧
            titleMatches to_ b = true) ∧
    (∀ books : List Book, applyFilters books none none none = books) ∧
    applyFilters [demoFiction1, demoFiction2, demoDrama] (some "Fiction") none none
      = [demoFiction1, demoFiction2] := by
  refine ⟨?_, ?_, by decide⟩
  · intro books go ao to_ b
    unfold applyFilters genreMatches authorMatches titleMatches
    rcases go with _ | g <;> rcases ao with _ | a <;> rcases to_ with _ | t <;>
      (repeat' split) <;> simp [List.mem_filter] <;> tauto
  · intro books
    rfl

/-- C5: a registration request that passes field validation and whose
email (or username) equals a stored user's email (or username) up to
ASCII case yields a conflict and leaves the user collection unchanged —
no record is inserted. -/
theorem registerDuplicateIsConflict
    (users : List User) (username email password : Option String)
    (newId now hashed : String) (u : User)
    (h1 : truthy username = true) (h2 : truthy email = true) (h3 : truthy password = true)
    (h4 : isValidEmail (email.getD "") = true)
    (h5 : isValidPassword (password.getD "") = true)
    (h6 : 3 ≤ (username.getD "").length) (h7 : (username.getD "").length ≤ 20)
    (hu : u ∈ users)
    (hdup : lowerStr u.email = lowerStr (email.getD "") ∨
            lowerStr u.username = lowerStr (username.getD "")) :
    registerUser username email password newId now hashed users = (.conflict, users) := by
  have hdupB : users.any (fun v => lowerStr v.email == lowerStr (email.getD "") ||
      lowerStr v.username == lowerStr (username.getD "")) = true := by
    rw [List.any_eq_true]
    refine ⟨u, hu, ?_⟩
    rcases hdup with h | h
    · simp [h]
    · simp [h]
  have hlen : (decide ((username.getD "").length < 3) ||
      decide (20 < (username.getD "").length)) = false := by
    simp only [Bool.or_eq_false_iff, decide_eq_false_iff_not]
    omega
  unfold registerUser
  simp only [h1, h2, h3, h4, h5, hdupB, hlen, Bool.not_true, Bool.or_self, Bool.false_or,
    Bool.or_false, Bool.false_eq_true, if_false, if_true]

/-- Witness for C5: after registering `a@x.com`, registering `A@X.com`
with a fresh username is rejected as a conflict and inserts nothing. -/
theorem registerDuplicateIsConflict_witness :
    registerUser (some "bob") (some "a@x.com") (some "abc123") "id1" "t1" "h1" []
      = (.created (publicUserPairs demoUser), [demoUser]) ∧
    registerUser (some "carol") (some "A@X.com") (some "xyz789") "id2" "t2" "h2" [demoUser]
      = (.conflict, [demoUser]) :=
  ⟨by decide,
   registerDuplicateIsConflict [demoUser] (some "carol") (some "A@X.com") (some "xyz789")
     "id2" "t2" "h2" demoUser (by decide) (by decide) (by decide) (by decide) (by decide)
     (by decide) (by decide) (by decide) (Or.inl (by decide))⟩

/-- C6: the password validator accepts exactly the strings of length ≥ 6
whose characters are all letters, digits or one of `@ $ ! % * # ? &`,
containing at least one letter and at least one digit; `abc123` passes,
`abcdef` and `123456` fail. -/
theorem passwordValidatorCharacterization :
    (∀ p : String, isValidPassword p = true ↔
      (6 ≤ p.data.length ∧
       (∀ c ∈ p.data, (('A' ≤ c ∧ c ≤ 'Z') ∨ ('a' ≤ c ∧ c ≤ 'z')) ∨ c.isDigit = true ∨
          ['@', '$', '!', '%', '*', '#', '?', '&'].contains c = true) ∧
       (∃ c ∈ p.data, ('A' ≤ c ∧ c ≤ 'Z') ∨ ('a' ≤ c ∧ c ≤ 'z')) ∧
       (∃ c ∈ p.data, c.isDigit = true))) ∧
    isValidPassword "abc123" = true ∧
    isValidPassword "abcdef" = false ∧
    isValidPassword "123456" = false := by
  refine ⟨?_, by decide, by decide, by decide⟩
  intro p
  unfold isValidPassword isAllowedPwChar isAsciiLetter
  simp only [Bool.and_eq_true, and_assoc, or_assoc, List.all_eq_true, List.any_eq_true,
    Bool.or_eq_true, decide_eq_true_eq]

/-- C7 counterexample: the non-numeric page value `"abc"` is not rejected:
`parseInt` yields `NaN`, the `NaN < 1` comparison is false, and the
request succeeds (returning an empty page), contradicting the claim that
any non-numeric value is rejected with a validation error. -/
theorem nonNumericPageNotRejected :
    (getAllBooks [demoBook] none none none (some "abc") none).isBadRequest = false ∧
    (getAllBooks [demoBook] none none none (some "abc") none).isOk = true := by
  decide

/-- C7 (amended): the listing endpoints reject with the validation error
exactly when `parseInt` of page or of limit yields a number smaller
than 1; a `NaN` result (non-numeric input) never triggers the rejection. -/
theorem pageLimitValidationCharacterization :
    (∀ (books : List Book) (g a t : Option String) (pn lim : JsNum),
      (getAllBooksCore books g a t pn lim).isBadRequest = true ↔
        ((∃ n : Int, pn = .num n ∧ n < 1) ∨ (∃ n : Int, lim = .num n ∧ n < 1))) ∧
    (∀ (books : List Book) (genre : String) (pn lim : JsNum),
      (searchBooksByGenreCore books genre pn lim).isBadRequest = true ↔
        ((∃ n : Int, pn = .num n ∧ n < 1) ∨ (∃ n : Int, lim = .num n ∧ n < 1))) := by
  constructor
  · intro books g a t pn lim
    unfold getAllBooksCore
    rcases pn with _ | n <;> rcases lim with _ | m <;>
      simp [jsLt, ListResult.isBadRequest] <;>
      split_ifs <;>
      simp_all [ListResult.isBadRequest]
  · intro books genre pn lim
    unfold searchBooksByGenreCore
    rcases pn with _ | n <;> rcases lim with _ | m <;>
      simp [jsLt, ListResult.isBadRequest] <;>
      split_ifs <;>
      simp_all [ListResult.isBadRequest]

/-- C8 counterexample: a book patch whose title field is present but the
empty string leaves the record entirely unchanged (the truthiness guard
treats the present falsy value as absent), instead of setting the title
to the empty string as the claim requires. -/
theorem presentEmptyStringPatchFieldIgnored :
    updateBook "b1" (some "") none none none (some "u1") 2025 [demoBook]
      = (.ok demoBook, [demoBook]) ∧ demoBook.title = "Dune" := by
  decide

/-- C8 (amended): the update merge overwrites exactly the *truthy* patch
fields (trimming strings, lowercasing emails); a field that is absent or
present-but-falsy (empty string, zero) is left unchanged; identifiers are
never patched and the user's `updatedAt` is always refreshed. -/
theorem mergePatchTruthyFieldsOnly :
    (∀ (b : Book) (t a g : Option String) (py : Option Int),
      (mergeBook b t a g py).id = b.id ∧
      (mergeBook b t a g py).userId = b.userId ∧
      (∀ s, t = some s → s ≠ "" → (mergeBook b t a g py).title = trimStr s) ∧
      (t = none ∨ t = some "" → (mergeBook b t a g py).title = b.title) ∧
      (∀ s, a = some s → s ≠ "" → (mergeBook b t a g py).author = trimStr s) ∧
      (a = none ∨ a = some "" → (mergeBook b t a g py).author = b.author) ∧
      (∀ s, g = some s → s ≠ "" → (mergeBook b t a g py).genre = trimStr s) ∧
      (g = none ∨ g = some "" → (mergeBook b t a g py).genre = b.genre) ∧
      (∀ n : Int, py = some n → n ≠ 0 → (mergeBook b t a g py).publishedYear = n) ∧
      (py = none ∨ py = some 0 → (mergeBook b t a g py).publishedYear = b.publishedYear)) ∧
    (∀ (u : User) (un em : Option String) (now : String),
      (mergeUser u un em now).id = u.id ∧
      (mergeUser u un em now).password = u.password ∧
      (mergeUser u un em now).createdAt = u.createdAt ∧
      (mergeUser u un em now).updatedAt = now ∧
      (∀ s, un = some s → s ≠ "" → (mergeUser u un em now).username = trimStr s) ∧
      (un = none ∨ un = some "" → (mergeUser u un em now).username = u.username) ∧
      (∀ s, em = some s → s ≠ "" → (mergeUser u un em now).email = trimStr (lowerStr s)) ∧
      (em = none ∨ em = some "" → (mergeUser u un em now).email = u.email)) := by
  constructor
  · intro b t a g py
    refine ⟨rfl, rfl, ?_, ?_, ?_, ?_, ?_, ?_, ?_, ?_⟩
    · intro s hs hne
      simp [mergeBook, truthy, hs, hne]
    · rintro (h | h) <;> simp [mergeBook, truthy, h]
    · intro s hs hne
      simp [mergeBook, truthy, hs, hne]
    · rintro (h | h) <;> simp [mergeBook, truthy, h]
    · intro s hs hne
      simp [mergeBook, truthy, hs, hne]
    · rintro (h | h) <;> simp [mergeBook, truthy, h]
    · intro n hn hne
      simp [mergeBook, truthyI, hn, hne]
    · rintro (h | h) <;> simp [mergeBook, truthyI, h]
  · intro u un em now
    refine ⟨rfl, rfl, rfl, rfl, ?_, ?_, ?_, ?_⟩
    · intro s hs hne
      simp [mergeUser, truthy, hs, hne]
    · rintro (h | h) <;> simp [mergeUser, truthy, h]
    · intro s hs hne
      simp [mergeUser, truthy, hs, hne]
    · rintro (h | h) <;> simp [mergeUser, truthy, h]

/-- Witness for the amended C8 at concrete patches: a truthy title is
trimmed and stored, an empty-string title is ignored, a truthy email is
lowercased, and `updatedAt` is refreshed. -/
theorem mergePatchTruthyFieldsOnly_witness :
    (mergeBook demoBook (some "New ") none none none).title = trimStr "New " ∧
    (mergeBook demoBook (some "") none none none).title = demoBook.title ∧
    (mergeUser demoUser none (some "B@Y.com") "t9").email = trimStr (lowerStr "B@Y.com") ∧
    (mergeUser demoUser none none "t9").updatedAt = "t9" := by
  refine ⟨?_, ?_, ?_, ?_⟩
  · exact (mergePatchTruthyFieldsOnly.1 demoBook (some "New ") none none none).2.2.1
      "New " rfl (by decide)
  · exact (mergePatchTruthyFieldsOnly.1 demoBook (some "") none none none).2.2.2.1
      (Or.inr rfl)
  · exact (mergePatchTruthyFieldsOnly.2 demoUser none (some "B@Y.com") "t9").2.2.2.2.2.2.1
      "B@Y.com" rfl (by decide)
  · exact (mergePatchTruthyFieldsOnly.2 demoUser none none "t9").2.2.2.1

/-- Helper: the rest-spread user object carries exactly the five
non-password keys. -/
theorem password_notin_publicUserPairs (u : User) :
    "password" ∉ (publicUserPairs u).map Prod.fst := by
  simp only [publicUserPairs, List.map_cons, List.map_nil]
  decide

/-- C10: every user object in a success response of registration, login,
list-all-users, get-user-by-id and update-user is built by the
password-stripping rest-spread, so none of them contains a `password`
key. -/
theorem responsesNeverContainPasswordField :
    (∀ u : User, "password" ∉ (publicUserPairs u).map Prod.fst) ∧
    (∀ (username email password : Option String) (newId now hashed : String)
        (users users' : List User) (payload : List (String × String)),
      registerUser username email password newId now hashed users = (.created payload, users') →
      "password" ∉ payload.map Prod.fst) ∧
    (∀ (email password : Option String) (checkHash : String → String → Bool)
        (mkToken : String → String → String) (users : List User)
        (payload : List (String × String)) (token : String),
      loginUser email password checkHash mkToken users = .ok payload token →
      "password" ∉ payload.map Prod.fst) ∧
    (∀ (users : List User) (payload : List (String × String)),
      payload ∈ (getAllUsers users).1 → "password" ∉ payload.map Prod.fst) ∧
    (∀ (id : String) (users : List User) (payload : List (String × String)),
      getUserById id users = .ok payload → "password" ∉ payload.map Prod.fst) ∧
    (∀ (id : String) (username email : Option String) (now : String)
        (users users' : List User) (payload : List (String × String)),
      updateUser id username email now users = (.ok payload, users') →
      "password" ∉ payload.map Prod.fst) := by
  refine ⟨password_notin_publicUserPairs, ?_, ?_, ?_, ?_, ?_⟩
  · intro username email password newId now hashed users users' payload h
    unfold registerUser at h
    split_ifs at h
    case _ => exact absurd h (by simp)
    case _ => exact absurd h (by simp)
    case _ => exact absurd h (by simp)
    case _ => exact absurd h (by simp)
    case _ => exact absurd h (by simp)
    case _ =>
      simp only [Prod.mk.injEq, RegisterResult.created.injEq] at h
      rcases h with ⟨h1, -⟩
      rw [← h1]
      exact password_notin_publicUserPairs _
  · intro email password checkHash mkToken users payload token h
    unfold loginUser at h
    by_cases hg : (!truthy email || !truthy password) = true
    · rw [if_pos hg] at h
      exact absurd h (by simp)
    · rw [if_neg hg] at h
      cases hf : users.find? (fun u => lowerStr u.email == lowerStr (email.getD "")) with
      | none =>
        simp only [hf] at h
        exact absurd h (by simp)
      | some u =>
        simp only [hf] at h
        by_cases hc : (!checkHash (password.getD "") u.password) = true
        · rw [if_pos hc] at h
          exact absurd h (by simp)
        · rw [if_neg hc] at h
          injection h with h1 h2
          rw [← h1]
          exact password_notin_publicUserPairs _
  · intro users payload h
    simp only [getAllUsers, List.mem_map] at h
    rcases h with ⟨u, -, rfl⟩
    exact password_notin_publicUserPairs _
  · intro id users payload h
    unfold getUserById at h
    by_cases hid : (id == "") = true
    · rw [if_pos hid] at h
      exact absurd h (by simp)
    · rw [if_neg hid] at h
      cases hf : users.find? (fun u => u.id == id) with
      | none =>
        simp only [hf] at h
        exact absurd h (by simp)
      | some u =>
        simp only [hf, GetUserResult.ok.injEq] at h
        rw [← h]
        exact password_notin_publicUserPairs _
  · intro id username email now users users' payload h
    unfold updateUser at h
    by_cases hid : (id == "") = true
    · rw [if_pos hid] at h
      exact absurd h (by simp)
    · rw [if_neg hid] at h
      cases hidx : users.findIdx? (fun u => u.id == id) with
      | none =>
        simp only [hidx] at h
        exact absurd h (by simp)
      | some i =>
        simp only [hidx] at h
        cases hget : users[i]? with
        | none =>
          simp only [hget] at h
          exact absurd h (by simp)
        | some u =>
          simp only [hget] at h
          split_ifs at h <;> simp only [Prod.mk.injEq, UpdateUserResult.ok.injEq] at h <;>
            rcases h with ⟨h1, -⟩ <;>
            first
              | exact absurd h1 (by simp)
              | (rw [← h1]; exact password_notin_publicUserPairs _)

/-- Witness for C10: the get-user-by-id success payload for a concrete
stored user has no password key. -/
theorem responsesNeverContainPasswordField_witness :
    "password" ∉ (publicUserPairs demoUser).map Prod.fst :=
  responsesNeverContainPasswordField.2.2.2.2.1 "id1" [demoUser]
    (publicUserPairs demoUser) (by decide)

/-- Helper: decimal digit characters are digits. -/
theorem digitChar_isDigit : ∀ d, d < 10 → (digitChar d).isDigit = true := by decide

/-- Helper: code point of a decimal digit character. -/
theorem digitChar_toNat : ∀ d, d < 10 → (digitChar d).toNat = 48 + d := by decide

/-- Helper: the decimal rendering of a natural number is nonempty. -/
theorem natToChars_ne_nil (n : Nat) : natToChars n ≠ [] := by
  rw [natToChars]
  split <;> simp

/-- Helper: the decimal rendering consists of digit characters. -/
theorem natToChars_all_digits : ∀ n, ∀ c ∈ natToChars n, c.isDigit = true := by
  intro n
  induction n using Nat.strong_induction_on with
  | _ n ih =>
    rw [natToChars]
    split
    · next h =>
      intro c hc
      simp only [List.mem_singleton] at hc
      subst hc
      exact digitChar_isDigit n h
    · next h =>
      intro c hc
      rcases List.mem_append.mp hc with h1 | h1
      · exact ih (n / 10) (Nat.div_lt_self (by omega) (by omega)) c h1
      · simp only [List.mem_singleton] at h1
        subst h1
        exact digitChar_isDigit _ (Nat.mod_lt _ (by omega))

/-- Helper: the decimal rendering starts with a digit character. -/
theorem natToChars_head (n : Nat) :
    ∃ d t, d < 10 ∧ natToChars n = digitChar d :: t := by
  induction n using Nat.strong_induction_on with
  | _ n ih =>
    rw [natToChars]
    split
    · next h => exact ⟨n, [], h, rfl⟩
    · next h =>
      obtain ⟨d, t, hd, ht⟩ := ih (n / 10) (Nat.div_lt_self (by omega) (by omega))
      exact ⟨d, t ++ [digitChar (n % 10)], hd, by rw [ht]; rfl⟩

/-- Helper: evaluating the rendered digits recovers the number. -/
theorem digitsVal_natToChars : ∀ n, digitsVal (natToChars n) = n := by
  intro n
  induction n using Nat.strong_induction_on with
  | _ n ih =>
    rw [natToChars]
    split
    · next h =>
      simp [digitsVal, digitChar_toNat n h]
    · next h =>
      have : digitsVal (natToChars (n / 10) ++ [digitChar (n % 10)])
          = digitsVal (natToChars (n / 10)) * 10 + ((digitChar (n % 10)).toNat - 48) := by
        simp [digitsVal, List.foldl_append]
      rw [this, ih (n / 10) (Nat.div_lt_self (by omega) (by omega)),
        digitChar_toNat _ (Nat.mod_lt _ (by omega))]
      omega

/-- Helper: `takeWhile isDigit` of digits followed by a non-digit head. -/
theorem takeWhile_digits_append (ds rest : List Char)
    (h1 : ∀ c ∈ ds, c.isDigit = true) (h2 : headNotDigit rest = true) :
    (ds ++ rest).takeWhile Char.isDigit = ds := by
  induction ds with
  | nil =>
    cases rest with
    | nil => rfl
    | cons c t =>
      simp only [headNotDigit, Bool.not_eq_true'] at h2
      simp [List.takeWhile_cons, h2]
  | cons d ds ihd =>
    have hd := h1 d (by simp)
    simp only [List.cons_append, List.takeWhile_cons, hd, if_true]
    rw [ihd (fun c hc => h1 c (by simp [hc]))]

/-- Helper: parsing the printed digits of a natural number. -/
theorem parseNatNum_natToChars (n : Nat) (rest : List Char)
    (h : headNotDigit rest = true) :
    parseNatNum (natToChars n ++ rest) = some (n, rest) := by
  unfold parseNatNum
  rw [takeWhile_digits_append _ _ (natToChars_all_digits n) h]
  have hne := natToChars_ne_nil n
  rw [if_neg (by simpa using hne)]
  rw [digitsVal_natToChars, List.drop_left]

/-- Helper: parsing the printed form of an integer. -/
theorem parseNum_intToChars (n : Int) (rest : List Char)
    (h : headNotDigit rest = true) :
    parseNum (intToChars n ++ rest) = some (n, rest) := by
  cases n with
  | ofNat m =>
    have hic : intToChars (Int.ofNat m) = natToChars m := rfl
    rw [hic]
    unfold parseNum
    obtain ⟨d, t, hd, ht⟩ := natToChars_head m
    rw [ht]
    rw [if_neg (by
      simp only [List.cons_append, List.head?_cons, Option.some.injEq]
      have := digitChar_toNat d hd
      intro hc
      rw [hc] at this
      simp at this
      omega)]
    rw [← ht, parseNatNum_natToChars m rest h]
    rfl
  | negSucc m =>
    have hic : intToChars (Int.negSucc m) = '-' :: natToChars (m + 1) := rfl
    rw [hic]
    unfold parseNum
    simp only [List.cons_append, List.head?_cons, Option.some.injEq, if_pos rfl, List.tail_cons]
    rw [parseNatNum_natToChars (m + 1) rest h]
    simp [Int.negSucc_eq]

/-- Helper: whitespace characters are not digits. -/
theorem ws_not_digit : ∀ c : Char, isJsonWs c = true → c.isDigit = false := by
  intro c h
  simp only [isJsonWs, Bool.or_eq_true, decide_eq_true_eq] at h
  rcases h with ((h | h) | h) | h <;> subst h <;> decide

/-- Helper: skipping whitespace passes over an all-whitespace prefix. -/
theorem skipWs_append_ws (ws X : List Char) (h : ∀ c ∈ ws, isJsonWs c = true) :
    skipWs (ws ++ X) = skipWs X := by
  induction ws with
  | nil => rfl
  | cons c t iht =>
    simp only [List.cons_append, skipWs, List.dropWhile_cons, h c (by simp), if_true]
    exact iht fun c hc => h c (by simp [hc])

/-- Helper: skipping whitespace stops at a non-whitespace head. -/
theorem skipWs_not_ws (c : Char) (cs : List Char) (h : isJsonWs c = false) :
    skipWs (c :: cs) = c :: cs := by
  simp [skipWs, List.dropWhile_cons, h]

/-- Helper: skipping whitespace passes over indentation. -/
theorem skipWs_indent (d : Nat) (X : List Char) :
    skipWs (indentChars d ++ X) = skipWs X := by
  apply skipWs_append_ws
  intro c hc
  rw [List.eq_of_mem_replicate hc]
  decide

/-- Helper: skipping whitespace passes over a newline. -/
theorem skipWs_newline (X : List Char) : skipWs ('\n' :: X) = skipWs X := by
  simp [skipWs, List.dropWhile_cons, show isJsonWs '\n' = true from by decide]

/-- Helper: an input whose whitespace-skipped form starts with a
non-digit cannot begin with a digit. -/
theorem headNotDigit_of_skipWs (tail : List Char) (x : Char) (r : List Char)
    (h : skipWs tail = x :: r) (hx : x.isDigit = false) :
    headNotDigit tail = true := by
  cases tail with
  | nil => simp [skipWs] at h
  | cons c t =>
    by_cases hw : isJsonWs c = true
    · simp [headNotDigit, ws_not_digit c hw]
    · rw [skipWs_not_ws c t (by simpa using hw)] at h
      rcases h with ⟨rfl, -⟩
      simp [headNotDigit, hx]

/-- Helper: hexadecimal digit characters decode to their value. -/
theorem hexVal_hexChar : ∀ d, d < 16 → hexVal (hexChar d) = some d := by decide

/-- Helper: un-escaping inverts `JSON.stringify` string escaping. -/
theorem parseStrBody_escStr (cs rest : List Char) :
    parseStrBody (escStr cs ++ ('"' :: rest)) = some (cs, rest) := by
  induction cs with
  | nil =>
    simp only [escStr, List.nil_append]
    rw [parseStrBody.eq_def]
    simp
  | cons c cs ih =>
    simp only [escStr, List.append_assoc]
    unfold escChar
    split_ifs with h1 h2 h3 h4 h5 h6 h7 h8
    · subst h1
      simp only [List.cons_append, List.nil_append]
      rw [parseStrBody.eq_def]
      simp [unescapeChar, ih]
    · subst h2
      simp only [List.cons_append, List.nil_append]
      rw [parseStrBody.eq_def]
      simp [unescapeChar, ih]
    · subst h3
      simp only [List.cons_append, List.nil_append]
      rw [parseStrBody.eq_def]
      simp [unescapeChar, ih]
    · subst h4
      simp only [List.cons_append, List.nil_append]
      rw [parseStrBody.eq_def]
      simp [unescapeChar, ih]
    · subst h5
      simp only [List.cons_append, List.nil_append]
      rw [parseStrBody.eq_def]
      simp [unescapeChar, ih]
    · subst h6
      simp only [List.cons_append, List.nil_append]
      rw [parseStrBody.eq_def]
      simp [unescapeChar, ih]
    · subst h7
      simp only [List.cons_append, List.nil_append]
      rw [parseStrBody.eq_def]
      simp [unescapeChar, ih]
    · simp only [List.cons_append, List.nil_append]
      rw [parseStrBody.eq_def]
      have hhi : hexVal (hexChar (c.toNat / 16)) = some (c.toNat / 16) :=
        hexVal_hexChar _ (by omega)
      have hlo : hexVal (hexChar (c.toNat % 16)) = some (c.toNat % 16) :=
        hexVal_hexChar _ (by omega)
      have h0 : hexVal '0' = some 0 := by decide
      simp only [hex4, h0, hhi, hlo, ih]
      have harith : ((0 * 16 + 0) * 16 + c.toNat / 16) * 16 + c.toNat % 16 = c.toNat := by
        omega
      rw [harith, Char.ofNat_toNat]
      simp
    · simp only [List.cons_append]
      rw [parseStrBody.eq_def]
      simp [ih, h1, h2, h8]

/-- Helper: dispatch facts about decimal digit characters. -/
theorem digitChar_not_special : ∀ d, d < 10 →
    digitChar d ≠ 'n' ∧ digitChar d ≠ 't' ∧ digitChar d ≠ 'f' ∧ digitChar d ≠ '"' ∧
    digitChar d ≠ '[' ∧ digitChar d ≠ '\x7b' ∧ (digitChar d).isDigit = true ∧
    isJsonWs (digitChar d) = false ∧ digitChar d ≠ ']' ∧ digitChar d ≠ '\x7d' := by
  decide

/-- Helper: every value node has positive fuel requirement. -/
theorem jsize_pos : ∀ v : JVal, 1 ≤ jsize v := by
  intro v
  cases v <;> simp [jsize]

/-- Helper: a printed value starts with a non-whitespace character that
is not a closing bracket, closing brace, comma or colon. -/
theorem printVal_head_ok (d : Nat) (v : JVal) :
    ∃ c t, printVal d v = c :: t ∧ isJsonWs c = false ∧ c ≠ ']' ∧ c ≠ '\x7d' := by
  cases v with
  | jnull => exact ⟨'n', _, rfl, by decide, by decide, by decide⟩
  | jbool b =>
    cases b with
    | false => exact ⟨'f', _, rfl, by decide, by decide, by decide⟩
    | true => exact ⟨'t', _, rfl, by decide, by decide, by decide⟩
  | jnum n =>
    cases n with
    | ofNat m =>
      obtain ⟨dd, t, hdd, ht⟩ := natToChars_head m
      obtain ⟨-, -, -, -, -, -, -, hw, hcl, hbr⟩ := digitChar_not_special dd hdd
      exact ⟨digitChar dd, t, by simp [printVal, intToChars, ht], hw, hcl, hbr⟩
    | negSucc m =>
      exact ⟨'-', natToChars (m + 1), by simp [printVal, intToChars], by decide, by decide,
        by decide⟩
  | jstr s => exact ⟨'"', _, rfl, by decide, by decide, by decide⟩
  | jarr l =>
    cases l with
    | nil => exact ⟨'[', _, rfl, by decide, by decide, by decide⟩
    | cons e es => exact ⟨'[', _, rfl, by decide, by decide, by decide⟩
  | jobj l =>
    cases l with
    | nil => exact ⟨'\x7b', _, rfl, by decide, by decide, by decide⟩
    | cons f fs =>
      obtain ⟨k, v⟩ := f
      exact ⟨'\x7b', _, rfl, by decide, by decide, by decide⟩

/-- Helper: a newline followed by indentation is all whitespace. -/
theorem wsOnly_newline_indent (d : Nat) :
    ∀ c ∈ '\n' :: indentChars d, isJsonWs c = true := by
  intro c hc
  rcases List.mem_cons.mp hc with h | h
  · subst h
    decide
  · rw [List.eq_of_mem_replicate h]
    decide

theorem parsePrintAux : ∀ fuel : Nat,
    (∀ (v : JVal) (d : Nat) (rest pre : List Char),
      jsize v ≤ fuel → (∀ c ∈ pre, isJsonWs c = true) → headNotDigit rest = true →
      parseVal fuel (pre ++ (printVal d v ++ rest)) = some (v, rest)) ∧
    (∀ (e : JVal) (es : List JVal) (d : Nat) (tail rest pre : List Char),
      jsizeL (e :: es) ≤ fuel → (∀ c ∈ pre, isJsonWs c = true) →
      skipWs tail = ']' :: rest →
      parseItems fuel (pre ++ (printVal d e ++ (printArrItems d es ++ tail)))
        = some (e :: es, rest)) ∧
    (∀ (k : String) (v : JVal) (fs : List (String × JVal)) (d : Nat) (tail rest pre : List Char),
      jsizeO ((k, v) :: fs) ≤ fuel → (∀ c ∈ pre, isJsonWs c = true) →
      skipWs tail = '\x7d' :: rest →
      parseFields fuel
          (pre ++ ('"' :: (escStr k.data ++ ('"' :: ':' :: ' ' ::
            (printVal d v ++ (printObjItems d fs ++ tail))))))
        = some ((k, v) :: fs, rest)) := by
  intro fuel
  induction fuel using Nat.strong_induction_on with
  | _ fuel ih =>
  refine ⟨?_, ?_, ?_⟩
  · intro v d rest pre hsz hpre hrest
    have hv1 := jsize_pos v
    obtain ⟨f, rfl⟩ : ∃ f, fuel = f + 1 := ⟨fuel - 1, by omega⟩
    simp only [parseVal]
    rw [skipWs_append_ws pre _ hpre]
    cases v with
    | jnull =>
      simp only [printVal, List.cons_append, List.nil_append]
      rw [skipWs_not_ws _ _ (by decide)]
      simp
    | jbool b =>
      cases b with
      | false =>
        simp only [printVal, List.cons_append, List.nil_append]
        rw [skipWs_not_ws _ _ (by decide)]
        simp
      | true =>
        simp only [printVal, List.cons_append, List.nil_append]
        rw [skipWs_not_ws _ _ (by decide)]
        simp
    | jnum n =>
      cases n with
      | ofNat m =>
        obtain ⟨dd, t, hdd, ht⟩ := natToChars_head m
        obtain ⟨hn, htc, hfc, hq, hbk, hbr, hdig, hw, -, -⟩ := digitChar_not_special dd hdd
        have hpv : printVal d (JVal.jnum (Int.ofNat m)) ++ rest = digitChar dd :: (t ++ rest) := by
          simp [printVal, intToChars, ht]
        rw [hpv, skipWs_not_ws _ _ hw]
        have hpn : parseNum (digitChar dd :: (t ++ rest)) = some (Int.ofNat m, rest) := by
          have hre : digitChar dd :: (t ++ rest) = intToChars (Int.ofNat m) ++ rest := by
            show _ = natToChars m ++ rest
            rw [ht]
            rfl
          rw [hre, parseNum_intToChars _ _ hrest]
        simp [hn, htc, hfc, hq, hbk, hbr, hdig, hpn]
      | negSucc m =>
        have hpv : printVal d (JVal.jnum (Int.negSucc m)) ++ rest
            = '-' :: (natToChars (m + 1) ++ rest) := by
          simp [printVal, intToChars]
        rw [hpv, skipWs_not_ws _ _ (by decide)]
        have hpn : parseNum ('-' :: (natToChars (m + 1) ++ rest))
            = some (Int.negSucc m, rest) := by
          have hre : '-' :: (natToChars (m + 1) ++ rest)
              = intToChars (Int.negSucc m) ++ rest := rfl
          rw [hre, parseNum_intToChars _ _ hrest]
        simp [hpn]
    | jstr s =>
      rw [show printVal d (JVal.jstr s) ++ rest = '"' :: (escStr s.data ++ ('"' :: rest)) from
        by simp [printVal]]
      rw [skipWs_not_ws _ _ (by decide)]
      simp [parseStrBody_escStr]
    | jarr l =>
      cases l with
      | nil =>
        rw [show printVal d (JVal.jarr []) ++ rest = '[' :: (']' :: rest) from by
          simp [printVal]]
        rw [skipWs_not_ws _ _ (by decide)]
        have hin : skipWs (']' :: rest) = ']' :: rest := skipWs_not_ws _ _ (by decide)
        simp [hin]
      | cons e es =>
        rw [show printVal d (JVal.jarr (e :: es)) ++ rest
            = '[' :: ('\n' :: (indentChars (d + 1) ++ (printVal (d + 1) e ++
                (printArrItems (d + 1) es ++ ('\n' :: (indentChars d ++ (']' :: rest)))))))
          from by simp [printVal]]
        rw [skipWs_not_ws _ _ (by decide)]
        obtain ⟨c0, t0, hpe, hw0, hbk0, -⟩ := printVal_head_ok (d + 1) e
        have hin : skipWs ('\n' :: (indentChars (d + 1) ++ (printVal (d + 1) e ++
            (printArrItems (d + 1) es ++ ('\n' :: (indentChars d ++ (']' :: rest)))))))
            = printVal (d + 1) e ++ (printArrItems (d + 1) es ++
                ('\n' :: (indentChars d ++ (']' :: rest)))) := by
          rw [skipWs_newline, skipWs_indent, hpe]
          simp only [List.cons_append]
          exact skipWs_not_ws _ _ hw0
        have hneg : ((printVal (d + 1) e ++ (printArrItems (d + 1) es ++
            ('\n' :: (indentChars d ++ (']' :: rest))))).head? = some ']') = False := by
          rw [hpe]
          simp [hbk0]
        have hB := (ih f (by omega)).2.1 e es (d + 1)
          ('\n' :: (indentChars d ++ (']' :: rest))) rest []
          (by simp only [jsize] at hsz; omega)
          (by simp)
          (by rw [skipWs_newline, skipWs_indent]; exact skipWs_not_ws _ _ (by decide))
        simp only [List.nil_append] at hB
        simp [hin, hneg, hB]
        constructor
        · rw [hpe]
          simp [hbk0]
        · intro h
          rw [hpe] at h
          simp at h
    | jobj l =>
      cases l with
      | nil =>
        rw [show printVal d (JVal.jobj []) ++ rest = '\x7b' :: ('\x7d' :: rest) from by
          simp [printVal]]
        rw [skipWs_not_ws _ _ (by decide)]
        have hin : skipWs ('\x7d' :: rest) = '\x7d' :: rest := skipWs_not_ws _ _ (by decide)
        simp [hin]
      | cons kv fs =>
        obtain ⟨k, v⟩ := kv
        rw [show printVal d (JVal.jobj ((k, v) :: fs)) ++ rest
            = '\x7b' :: ('\n' :: (indentChars (d + 1) ++ ('"' :: (escStr k.data ++
                ('"' :: ':' :: ' ' :: (printVal (d + 1) v ++ (printObjItems (d + 1) fs ++
                  ('\n' :: (indentChars d ++ ('\x7d' :: rest))))))))))
          from by simp [printVal]]
        rw [skipWs_not_ws _ _ (by decide)]
        have hin : skipWs ('\n' :: (indentChars (d + 1) ++ ('"' :: (escStr k.data ++
            ('"' :: ':' :: ' ' :: (printVal (d + 1) v ++ (printObjItems (d + 1) fs ++
              ('\n' :: (indentChars d ++ ('\x7d' :: rest))))))))))
            = '"' :: (escStr k.data ++ ('"' :: ':' :: ' ' :: (printVal (d + 1) v ++
                (printObjItems (d + 1) fs ++ ('\n' :: (indentChars d ++ ('\x7d' :: rest))))))) := by
          rw [skipWs_newline, skipWs_indent]
          exact skipWs_not_ws _ _ (by decide)
        have hC := (ih f (by omega)).2.2 k v fs (d + 1)
          ('\n' :: (indentChars d ++ ('\x7d' :: rest))) rest []
          (by simp only [jsize] at hsz; omega)
          (by simp)
          (by rw [skipWs_newline, skipWs_indent]; exact skipWs_not_ws _ _ (by decide))
        simp only [List.nil_append] at hC
        simp [hin, hC]
  · intro e es d tail rest pre hsz hpre htail
    have hfuel : 1 ≤ fuel := by
      have := jsize_pos e
      simp only [jsizeL] at hsz
      omega
    obtain ⟨f, rfl⟩ : ∃ f, fuel = f + 1 := ⟨fuel - 1, by omega⟩
    have hnd : headNotDigit (printArrItems d es ++ tail) = true := by
      cases es with
      | nil =>
        simp only [printArrItems, List.nil_append]
        exact headNotDigit_of_skipWs tail ']' rest htail (by decide)
      | cons e2 es2 => simp [printArrItems, headNotDigit]
    have hA := (ih f (by omega)).1 e d (printArrItems d es ++ tail) pre
      (by have := jsize_pos e; simp only [jsizeL] at hsz; omega) hpre hnd
    simp only [parseItems, hA]
    cases es with
    | nil =>
      simp only [printArrItems, List.nil_append]
      rw [htail]
      simp
    | cons e2 es2 =>
      have hpi : printArrItems d (e2 :: es2) ++ tail
          = ',' :: ('\n' :: ((indentChars d ++ (printVal d e2 ++ printArrItems d es2)) ++ tail)) := by
        simp [printArrItems]
      rw [hpi, skipWs_not_ws _ _ (by decide)]
      have hB := (ih f (by omega)).2.1 e2 es2 d tail rest ('\n' :: indentChars d)
        (by simp only [jsizeL] at hsz ⊢; omega) (wsOnly_newline_indent d) htail
      simp only [List.cons_append] at hB
      simp [hB]
  · intro k v fs d tail rest pre hsz hpre htail
    have hfuel : 1 ≤ fuel := by
      have := jsize_pos v
      simp only [jsizeO] at hsz
      omega
    obtain ⟨f, rfl⟩ : ∃ f, fuel = f + 1 := ⟨fuel - 1, by omega⟩
    simp only [parseFields]
    rw [skipWs_append_ws pre _ hpre, skipWs_not_ws _ _ (by decide)]
    have hps := parseStrBody_escStr k.data
      (':' :: ' ' :: (printVal d v ++ (printObjItems d fs ++ tail)))
    simp only [hps]
    rw [skipWs_not_ws _ _ (by decide)]
    simp only [List.head?_cons, List.tail_cons, if_true]
    have hnd : headNotDigit (printObjItems d fs ++ tail) = true := by
      cases fs with
      | nil =>
        simp only [printObjItems, List.nil_append]
        exact headNotDigit_of_skipWs tail '\x7d' rest htail (by decide)
      | cons f2 fs2 =>
        obtain ⟨k2, v2⟩ := f2
        simp [printObjItems, headNotDigit]
    have hA2 := (ih f (by omega)).1 v d (printObjItems d fs ++ tail) [' ']
      (by have := jsize_pos v; simp only [jsizeO] at hsz; omega)
      (by intro c hc; simp only [List.mem_singleton] at hc; subst hc; decide) hnd
    simp only [List.singleton_append] at hA2
    simp only [hA2]
    cases fs with
    | nil =>
      simp only [printObjItems, List.nil_append]
      rw [htail]
      simp
    | cons f2 fs2 =>
      obtain ⟨k2, v2⟩ := f2
      have hpo : printObjItems d ((k2, v2) :: fs2) ++ tail
          = ',' :: ('\n' :: ((indentChars d ++ ('"' :: (escStr k2.data ++
              ('"' :: ':' :: ' ' :: (printVal d v2 ++ printObjItems d fs2))))) ++ tail)) := by
        simp [printObjItems]
      rw [hpo, skipWs_not_ws _ _ (by decide)]
      have hC2 := (ih f (by omega)).2.2 k2 v2 fs2 d tail rest ('\n' :: indentChars d)
        (by simp only [jsizeO] at hsz ⊢; omega) (wsOnly_newline_indent d) htail
      simp only [List.cons_append] at hC2
      simp [hC2]

/-- Helper: the fuel requirement never exceeds the printed length. -/
theorem jsize_le_printLen : ∀ n : Nat,
    (∀ v : JVal, jsize v ≤ n → ∀ d, jsize v ≤ (printVal d v).length) ∧
    (∀ l : List JVal, jsizeL l ≤ n → ∀ d, jsizeL l ≤ (printArrItems d l).length) ∧
    (∀ l : List (String × JVal), jsizeO l ≤ n → ∀ d, jsizeO l ≤ (printObjItems d l).length) := by
  intro n
  induction n using Nat.strong_induction_on with
  | _ n ih =>
  refine ⟨?_, ?_, ?_⟩
  · intro v hsz d
    cases v with
    | jnull => simp [jsize, printVal]
    | jbool b => cases b <;> simp [jsize, printVal]
    | jnum m =>
      cases m with
      | ofNat m =>
        have := natToChars_ne_nil m
        have hlen : 1 ≤ (natToChars m).length := by
          cases hn : natToChars m with
          | nil => exact absurd hn this
          | cons a b => simp
        simp only [jsize, printVal, intToChars]
        omega
      | negSucc m =>
        simp [jsize, printVal, intToChars]
    | jstr s => simp [jsize, printVal]
    | jarr l =>
      cases l with
      | nil => simp [jsize, jsizeL, printVal]
      | cons e es =>
        have h1 : 1 ≤ jsize (JVal.jarr (e :: es)) := jsize_pos _
        have he : jsize e ≤ (printVal (d + 1) e).length := by
          refine (ih (n - 1) ?_).1 e ?_ (d + 1)
          · simp only [jsize, jsizeL] at hsz
            omega
          · simp only [jsize, jsizeL] at hsz
            omega
        have hes : jsizeL es ≤ (printArrItems (d + 1) es).length := by
          refine (ih (n - 1) ?_).2.1 es ?_ (d + 1)
          · simp only [jsize, jsizeL] at hsz
            omega
          · simp only [jsize, jsizeL] at hsz
            omega
        simp only [jsize, jsizeL, printVal, List.length_cons, List.length_append,
          indentChars, List.length_replicate]
        omega
    | jobj l =>
      cases l with
      | nil => simp [jsize, jsizeO, printVal]
      | cons kv fs =>
        obtain ⟨k, v⟩ := kv
        have hv : jsize v ≤ (printVal (d + 1) v).length := by
          refine (ih (n - 1) ?_).1 v ?_ (d + 1)
          · simp only [jsize, jsizeO] at hsz
            omega
          · simp only [jsize, jsizeO] at hsz
            omega
        have hfs : jsizeO fs ≤ (printObjItems (d + 1) fs).length := by
          refine (ih (n - 1) ?_).2.2 fs ?_ (d + 1)
          · simp only [jsize, jsizeO] at hsz
            omega
          · simp only [jsize, jsizeO] at hsz
            omega
        simp only [jsize, jsizeO, printVal, List.length_cons, List.length_append,
          indentChars, List.length_replicate]
        omega
  · intro l hsz d
    cases l with
    | nil => simp [jsizeL, printArrItems]
    | cons e es =>
      have he : jsize e ≤ (printVal d e).length := by
        refine (ih (n - 1) ?_).1 e ?_ d
        · have := jsize_pos e
          simp only [jsizeL] at hsz
          omega
        · simp only [jsizeL] at hsz
          omega
      have hes : jsizeL es ≤ (printArrItems d es).length := by
        refine (ih (n - 1) ?_).2.1 es ?_ d
        · have := jsize_pos e
          simp only [jsizeL] at hsz
          omega
        · simp only [jsizeL] at hsz
          omega
      simp only [jsizeL, printArrItems, List.length_cons, List.length_append,
        indentChars, List.length_replicate]
      omega
  · intro l hsz d
    cases l with
    | nil => simp [jsizeO, printObjItems]
    | cons kv fs =>
      obtain ⟨k, v⟩ := kv
      have hv : jsize v ≤ (printVal d v).length := by
        refine (ih (n - 1) ?_).1 v ?_ d
        · have := jsize_pos v
          simp only [jsizeO] at hsz
          omega
        · simp only [jsizeO] at hsz
          omega
      have hfs : jsizeO fs ≤ (printObjItems d fs).length := by
        refine (ih (n - 1) ?_).2.2 fs ?_ d
        · have := jsize_pos v
          simp only [jsizeO] at hsz
          omega
        · simp only [jsizeO] at hsz
          omega
      simp only [jsizeO, printObjItems, List.length_cons, List.length_append,
        indentChars, List.length_replicate]
      omega

/-- Helper: specialization of the fuel bound. -/
theorem jsize_le_print (v : JVal) (d : Nat) : jsize v ≤ (printVal d v).length :=
  (jsize_le_printLen (jsize v)).1 v le_rfl d

/-- C9: writing a collection document with the storage gateway and
reading it back yields the original in-memory structure. -/
theorem readAfterWriteRoundTrip (filePath : String) (content : JVal) (fs : FileSys) :
    readJSONFile filePath (writeJSONFile filePath content fs) = some content := by
  unfold readJSONFile writeJSONFile
  simp only [beq_self_eq_true, if_pos, if_true]
  unfold parseJson stringifyPretty
  have h2 : (⟨printVal 0 content⟩ : String).length = (printVal 0 content).length := rfl
  have h3 : (⟨printVal 0 content⟩ : String).data = printVal 0 content := rfl
  rw [h2, h3]
  have hmain := (parsePrintAux ((printVal 0 content).length + 1)).1 content 0 [] []
    (le_trans (jsize_le_print content 0) (by omega)) (by simp) rfl
  simp only [List.nil_append, List.append_nil] at hmain
  rw [hmain]
  simp [skipWs]
